import Mathlib

/-!
Shallow embedding of `msk/actions/create.py` (mycroft-skills-kit):
string templates and derived identifiers, the template-instantiation
procedure `initialize_template` over an explicit filesystem model, the
`commit_changes` step over a git-repository model, and the error mapping
of `create_github_repo`.
-/

namespace MskCreate

/-- Python `str.capitalize`: first character uppercased, all remaining
characters lowercased. -/
def pyCapitalize (s : String) : String :=
  match s.data with
  | [] => ""
  | c :: cs => String.mk (c.toUpper :: cs.map Char.toLower)

/-- Helper for `pyTitle`; the Bool records whether the previous character
was alphabetic. -/
def pyTitleGo : Bool → List Char → List Char
  | _, [] => []
  | prev, c :: cs =>
    (if c.isAlpha then (if prev then c.toLower else c.toUpper) else c) :: pyTitleGo c.isAlpha cs

/-- Python `str.title`: uppercase each letter that follows a non-letter,
lowercase every other letter. -/
def pyTitle (s : String) : String := String.mk (pyTitleGo false s.data)

/-- Python `str.replace(pat, rep)` for a single-character pattern (every
`replace` call in `create.py` uses a one-character pattern): substitute `rep`
for each occurrence of the character `pat`. -/
def pyReplaceChar (s : String) (pat : Char) (rep : String) : String :=
  String.mk (s.data.foldr (fun c acc => (if c = pat then rep.data else [c]) ++ acc) [])

/-- Helper for `pySplitChar`: split a character list on a separator
character; the result always has at least one group. -/
def pySplitCharGo (sep : Char) : List Char → List (List Char)
  | [] => [[]]
  | c :: cs =>
      match pySplitCharGo sep cs with
      | [] => [[]]
      | g :: gs => if c = sep then [] :: g :: gs else (c :: g) :: gs

/-- Python `str.split(sep)` for a single-character separator (every `split`
call in `create.py` uses `'-'`): `"".split(sep)` is `[""]`, and separators at
the ends produce empty groups, as in Python. -/
def pySplitChar (s : String) (sep : Char) : List String :=
  (pySplitCharGo sep s.data).map String.mk

/-- Python `sep.join(parts)`. -/
def pyJoin (sep : String) (parts : List String) : String :=
  match parts with
  | [] => ""
  | p :: ps => ps.foldl (fun acc x => acc ++ sep ++ x) p

/-- Python `os.path.join` restricted to the two-argument relative form used in
`create.py`: `join(a, "")` is treated as `a` (Python returns `a + "/"`, which
denotes the same directory). -/
def pyJoinPath (a b : String) : String := if b = "" then a else a ++ "/" ++ b

/-- The skill descriptor: the user-provided values collected by the prompting
code of `CreateAction` (each is computed once and cached by `Lazy`; here they
are plain fields). `shortDescription`, `longDescription`, `examples` hold the
already post-processed values the lazy attributes store. -/
structure Skill where
  name : String
  lang : String
  shortDescription : String
  longDescription : String
  author : String
  examples : List String
deriving DecidableEq, Repr

/-- Modelled from the spec: `to_camel` lives in `msk/util.py`, which is not
part of the sources; the spec describes the derivation as snake-case to
PascalCase ("kebab-case skill name → PascalCase", applied after `-` has been
replaced by `_`). Each `_`-separated segment is capitalized and the segments
are concatenated. -/
def to_camel (s : String) : String :=
  String.join ((pySplitChar s '_').map pyCapitalize)

/-- `'{}Skill'.format(to_camel(name.replace('-', '_')))` from
`CreateAction.name` (create.py line 131). -/
def class_name (s : Skill) : String :=
  to_camel (pyReplaceChar s.name '-' "_") ++ "Skill"

/-- `intent_name = Lazy(lambda s: '.'.join(reversed(s.name.split('-'))))`
(create.py line 171). -/
def intent_name (s : Skill) : String :=
  pyJoin "." (pySplitChar s.name '-').reverse

/-- `credits_template` (create.py lines 33-36) with its `{author}` hole
substituted. -/
def credits_template (author : String) : String :=
  "## Credits\n" ++ author ++ "\n\n"

/-- `readme_template` (create.py lines 21-31) with the holes substituted as in
the `readme` lazy attribute (create.py lines 159-165). -/
def readme (s : Skill) : String :=
  "## " ++ pyTitle (pyReplaceChar s.name '-' " ") ++ "\n" ++ s.shortDescription ++
  "\n\n## Description\n" ++ s.longDescription ++ "\n\n## Examples\n" ++
  String.join (s.examples.map (fun i => " - \"" ++ i ++ "\"\n")) ++ "\n\n" ++
  credits_template s.author ++ "\n"

/-- `init_template` (create.py lines 38-54) with the holes substituted as in
the `init_file` lazy attribute (create.py lines 166-170): `class_name` there
is `to_camel(s.name.replace('-', '_'))` (without the `Skill` suffix),
`handler_name` is `intent_name.replace('.', '_')`. -/
def init_file (s : Skill) : String :=
  "from adapt.intent import IntentBuilder\nfrom mycroft import MycroftSkill, intent_file_handler\n\n\nclass "
  ++ to_camel (pyReplaceChar s.name '-' "_") ++
  "(MycroftSkill):\n    def __init__(self):\n        MycroftSkill.__init__(self)\n\n    @intent_file_handler(\x27"
  ++ intent_name s ++
  ".intent\x27)\n    def handle_" ++ pyReplaceChar (intent_name s) '.' "_" ++
  "(self, message):\n        self.speak_dialog(\x27" ++ intent_name s ++
  "\x27)\n\n\ndef create_skill():\n    return " ++ to_camel (pyReplaceChar s.name '-' "_") ++
  "()\n\n"

/-- `gitignore_template` (create.py lines 56-59). -/
def gitignore_template : String := "*.pyc\nsettings.json\n\n"

/-- `settingsmeta_template` (create.py lines 61-100) with its single
`{capital_desc}` hole substituted; the doubled braces of the Python literal
are literal braces of the output. -/
def settingsmeta_template (capital_desc : String) : String :=
  "\x7b\n    \"name\": \"" ++ capital_desc ++
  "\",\n    \"skillMetadata\": \x7b\n        \"sections\": [\n            \x7b\n                \"name\": \"Options << Name of section\",\n                \"fields\": [\n                    \x7b\n                        \"name\": \"internal_python_variable_name\",\n                        \"type\": \"text\",\n                        \"label\": \"Setting Friendly Display Name\",\n                        \"value\": \"\",\n                        \"placeholder\": \"demo prompt in the input box\"\n                    \x7d\n                ]\n            \x7d,\n            \x7b\n                \"name\": \"Login << Name of another section\",\n                \"fields\": [\n                    \x7b\n                        \"type\": \"label\",\n                        \"label\": \"Just a little bit of extra info for the user to understand following settings\"\n                    \x7d,\n                    \x7b\n                        \"name\": \"username\",\n                        \"type\": \"text\",\n                        \"label\": \"Username\",\n                        \"value\": \"\"\n                    \x7d,\n                    \x7b\n                        \"name\": \"password\",\n                        \"type\": \"password\",\n                        \"label\": \"Password\",\n                        \"value\": \"\"\n                    \x7d\n                ]\n            \x7d\n        ]\n    \x7d\n\x7d"

/-- Modelled from the spec: the spec sentence says the settingsmeta content is
"a static template with one substituted value (capitalized description)" —
this definition follows that sentence (to be compared against what the code
produces). -/
def settingsmeta_spec (s : Skill) : String :=
  settingsmeta_template (pyCapitalize s.shortDescription)

/-! ## Filesystem model

`initialize_template` touches the filesystem through `exists`, `isdir`,
`makedirs`, `open(..., 'w')` and `rmtree`. The filesystem is a list of
existing directory paths plus an association list from file path to
content (a later write to the same path shadows the earlier entry, as
truncating `open(..., 'w')` does). -/

structure FS where
  dirs : List String
  files : List (String × String)
deriving DecidableEq, Repr, Inhabited

/-- Python `os.path.exists`: the path is a directory or a file. -/
def existsPath (fs : FS) (p : String) : Bool :=
  fs.dirs.contains p || fs.files.any (fun kv => kv.1 == p)

/-- Python `os.path.isdir`. -/
def isDir (fs : FS) (p : String) : Bool := fs.dirs.contains p

/-- Record one directory as existing (one `mkdir` step of `makedirs`). -/
def mkdir (fs : FS) (p : String) : FS := { fs with dirs := p :: fs.dirs }

/-- Python `open(p, 'w'); f.write(c)`. -/
def writeFile (fs : FS) (p c : String) : FS := { fs with files := (p, c) :: fs.files }

/-- Content of the file at `p`, if any. -/
def readFile (fs : FS) (p : String) : Option String := fs.files.lookup p

/-- `q` is `p` itself or lies underneath the directory `p`. -/
def isUnder (p q : String) : Bool := q == p || (p ++ "/").data.isPrefixOf q.data

/-- Python `shutil.rmtree(p)`: remove `p` and everything under it. -/
def rmtree (fs : FS) (p : String) : FS :=
  { dirs := fs.dirs.filter (fun d => !isUnder p d),
    files := fs.files.filter (fun kv => !isUnder p kv.1) }

/-- `CreateAction.add_vocab` (create.py lines 173-176): `makedirs` of
`<path>/vocab/<lang>` (creating the intermediate `<path>/vocab` as well), then
write `<intent_name>.intent` containing
`intent_name.replace('.', ' ').capitalize() + '\n\n'`. -/
def add_vocab (s : Skill) (root : String) (fs : FS) : FS :=
  let d1 := pyJoinPath root "vocab"
  let d2 := pyJoinPath d1 s.lang
  writeFile (mkdir (mkdir fs d1) d2) (pyJoinPath d2 (intent_name s ++ ".intent"))
    (pyCapitalize (pyReplaceChar (intent_name s) '.' " ") ++ "\n\n")

/-- `CreateAction.add_dialog` (create.py lines 178-181): `makedirs` of
`<path>/dialog/<lang>`, then write `<intent_name>.dialog` containing
`name.replace('-', ' ').capitalize() + '\n\n'`. -/
def add_dialog (s : Skill) (root : String) (fs : FS) : FS :=
  let d1 := pyJoinPath root "dialog"
  let d2 := pyJoinPath d1 s.lang
  writeFile (mkdir (mkdir fs d1) d2) (pyJoinPath d2 (intent_name s ++ ".dialog"))
    (pyCapitalize (pyReplaceChar s.name '-' " ") ++ "\n\n")

/-- `git.init()`: creates the `.git` directory under the working directory. -/
def gitInit (root : String) (fs : FS) : FS := mkdir fs (pyJoinPath root ".git")

/-- Stdout of `git init`, the string value `git.init()` returns (its exact
text is irrelevant; what matters is that a string is returned). -/
def gitInitMsg (root : String) : String :=
  "Initialized empty Git repository in " ++ pyJoinPath root ".git" ++ "/"

/-- A template entry: relative path, and a zero-argument handler acting on
the filesystem that optionally returns string content (Python handlers return
`None`, a `str`, or a value that is not a `str`; only `str` matters to the
write-back step, so we model the result as `Option String`). -/
abbrev Entry := String × (FS → FS × Option String)

/-- `skill_template` (create.py lines 186-197), the ordered entry list of
`initialize_template`. -/
def skill_template (s : Skill) (root : String) : List Entry :=
  [("", fun fs => (mkdir fs root, none)),
   ("__init__.py", fun fs => (fs, some (init_file s))),
   ("README.md", fun fs => (fs, some (readme s))),
   ("vocab", fun fs => (add_vocab s root fs, none)),
   ("dialog", fun fs => (add_dialog s root fs, none)),
   (".gitignore", fun fs => (fs, some gitignore_template)),
   ("settingsmeta.json", fun fs =>
      (fs, some (settingsmeta_template (pyCapitalize (pyReplaceChar s.name '-' " "))))),
   (".git", fun fs => (gitInit root fs, some (gitInitMsg root)))]

/-- `if files and file not in files: continue` (create.py line 205): an entry
is skipped exactly when the filter is present, truthy (non-empty), and does
not contain the entry name. -/
def entrySkipped (files : Option (List String)) (nm : String) : Bool :=
  match files with
  | none => false
  | some l => !l.isEmpty && !l.contains nm

/-- One iteration of the loop body of `initialize_template` (create.py lines
204-211): apply the filter, skip existing paths, run the handler, and write
returned string content back — but only if the path still does not exist
after the handler ran. -/
def procEntry (root : String) (files : Option (List String)) (fs : FS) (e : Entry) : FS :=
  if entrySkipped files e.1 then fs
  else if existsPath fs (pyJoinPath root e.1) then fs
  else
    let res := e.2 fs
    match res.2 with
    | some c =>
        if existsPath res.1 (pyJoinPath root e.1) then res.1
        else writeFile res.1 (pyJoinPath root e.1) c
    | none => res.1

/-- The whole entry loop. -/
def runEntries (root : String) (files : Option (List String)) (fs : FS) (es : List Entry) : FS :=
  es.foldl (procEntry root files) fs

/-- State of a run of `initialize_template`: the filesystem plus whether the
`cleanup` handler is currently registered with `atexit`. -/
structure RunState where
  fs : FS
  cleanupRegistered : Bool
deriving DecidableEq, Repr

/-- `CreateAction.initialize_template` run to completion (create.py lines
183-212): the cleanup handler is registered before the loop when the target
directory does not yet exist, and `atexit.unregister` at the end always
leaves it unregistered. -/
def initialize_template (s : Skill) (root : String) (files : Option (List String))
    (fs : FS) : RunState :=
  { fs := runEntries root files fs (skill_template s root),
    cleanupRegistered := false }

/-- `CreateAction.initialize_template` aborted after the first `k` entries
completed (an exception in entry `k`, or an external termination, stops the
loop there): the registration from line 202-203 has happened, the
`atexit.unregister` on line 212 has not. -/
def initialize_template_abortedAt (s : Skill) (root : String)
    (files : Option (List String)) (fs : FS) (k : Nat) : RunState :=
  { fs := runEntries root files fs ((skill_template s root).take k),
    cleanupRegistered := !(isDir fs root) }

/-- Process exit: `atexit` runs `cleanup` — `rmtree(self.path)` — exactly
when it is still registered. -/
def processExit (root : String) (st : RunState) : FS :=
  if st.cleanupRegistered then rmtree st.fs root else st.fs

/-! ## Git repository model (for `commit_changes`) -/

/-- Local git repository: the files in the working tree, the staged files,
and the commit list (newest first), each commit a message together with the
snapshot of staged files it recorded. -/
structure GitRepo where
  worktree : List String
  staged : List String
  commits : List (String × List String)
deriving DecidableEq, Repr

/-- `git rev-parse HEAD` with `with_exceptions=False`: on a repository with no
commits the command fails and its stdout is the literal string `HEAD`; with a
commit it prints the head commit hash (modelled as a `sha-`-prefixed string,
never equal to `HEAD`). -/
def rev_parse_head (r : GitRepo) : String :=
  match r.commits with
  | [] => "HEAD"
  | ms => "sha-" ++ toString ms.length

/-- `git add .`: stage every file of the working tree. -/
def git_add_all (r : GitRepo) : GitRepo := { r with staged := r.worktree }

/-- `git commit -m m`: record the staged snapshot as a new commit. -/
def git_commit (m : String) (r : GitRepo) : GitRepo :=
  { r with commits := (m, r.staged) :: r.commits }

/-- `CreateAction.commit_changes` (create.py lines 214-217). -/
def commit_changes (r : GitRepo) : GitRepo :=
  if rev_parse_head r = "HEAD" then git_commit "Initial commit" (git_add_all r) else r

/-! ## GitHub provisioning model (for `create_github_repo`) -/

/-- A created remote repository as returned by the hosting API. -/
structure GhRepo where
  repoName : String
  htmlUrl : String
deriving DecidableEq, Repr

/-- `github.GithubException`: only the `status` field is inspected by
`create.py`. -/
structure GithubException where
  status : Nat
deriving DecidableEq, Repr

/-- Modelled from the spec: the failure kinds `create_github_repo` can end in.
`GithubRepoExists` lives in `msk/exceptions.py`, which is not part of the
sources; the spec describes it as the "domain-specific 'repo already exists'
failure" carrying the repository name, and all other hosting-API errors
propagate unchanged. -/
inductive CreateRepoError where
  | githubRepoExists : String → CreateRepoError
  | github : GithubException → CreateRepoError
deriving DecidableEq, Repr

/-- The `try/except` around `user.create_repo` (create.py lines 224-229):
a 422 status becomes `GithubRepoExists(repo_name)`, every other
`GithubException` is re-raised unchanged. -/
def create_repo_result (repoName : String) (api : Except GithubException GhRepo) :
    Except CreateRepoError GhRepo :=
  match api with
  | .ok repo => .ok repo
  | .error e =>
      if e.status = 422 then .error (.githubRepoExists repoName)
      else .error (.github e)

/-- `CreateAction.create_github_repo` (create.py lines 219-234) as a function
of its external inputs: the configured remotes, the user's confirmation
answer, the chosen repository name, and the hosting API's response. Returns
the created repository (if any) or the raised error. The remote-add and push
side effects are not modelled. -/
def create_github_repo (remotes : List String) (confirm : Bool) (repoName : String)
    (api : Except GithubException GhRepo) : Except CreateRepoError (Option GhRepo) :=
  if remotes.contains "origin" then .ok none
  else if confirm then
    match create_repo_result repoName api with
    | .ok repo => .ok (some repo)
    | .error err => .error err
  else .ok none

/-! ## Concrete values used by witnesses and counterexamples -/

/-- A concrete skill descriptor ("pizza orderer" from the prompt text of
create.py line 119). -/
def pizzaSkill : Skill :=
  { name := "pizza-orderer"
    lang := "en-us"
    shortDescription := "Orders fresh pizzas from the store"
    longDescription := "Orders fresh pizzas from the store over the internet."
    author := "Example Author"
    examples := ["Order a pizza"] }

/-- A concrete skill descriptor ("siren alarm" from the prompt text of
create.py line 119). -/
def sirenSkill : Skill :=
  { name := "siren-alarm"
    lang := "en-us"
    shortDescription := "Plays a siren alarm"
    longDescription := "Plays a siren alarm at a chosen time."
    author := "Example Author"
    examples := ["Sound the siren"] }

/-- An empty filesystem. -/
def FS.empty : FS := { dirs := [], files := [] }

/-- `b` has every directory and file entry of `a`: the relation every
template handler preserves (handlers only create, never delete). -/
def Grows (a b : FS) : Prop :=
  (∀ q, q ∈ a.dirs → q ∈ b.dirs) ∧ (∀ kv, kv ∈ a.files → kv ∈ b.files)

/-- The handler of entry `e` only grows the filesystem. -/
def EntryGrows (e : Entry) : Prop := ∀ fs, Grows fs (e.2 fs).1

/-- After processing entry `e` (unfiltered), the entry's path exists. -/
def EstablishesAt (root : String) (files : Option (List String)) (e : Entry) : Prop :=
  ∀ fs, existsPath (procEntry root files fs e) (pyJoinPath root e.1) = true

/-! ## Helper lemmas -/

theorem contains_eq_true_iff {l : List String} {a : String} :
    l.contains a = true ↔ a ∈ l := List.elem_iff

theorem existsPath_iff {fs : FS} {q : String} :
    existsPath fs q = true ↔ q ∈ fs.dirs ∨ ∃ kv ∈ fs.files, kv.1 = q := by
  simp [existsPath, List.contains, List.elem_iff, List.any_eq_true]

theorem isDir_iff {fs : FS} {q : String} : isDir fs q = true ↔ q ∈ fs.dirs :=
  List.elem_iff

theorem grows_refl (fs : FS) : Grows fs fs :=
  ⟨fun _ h => h, fun _ h => h⟩

theorem grows_trans {a b c : FS} (h1 : Grows a b) (h2 : Grows b c) : Grows a c :=
  ⟨fun q h => h2.1 q (h1.1 q h), fun kv h => h2.2 kv (h1.2 kv h)⟩

theorem grows_mkdir (fs : FS) (p : String) : Grows fs (mkdir fs p) :=
  ⟨fun _ h => List.mem_cons_of_mem _ h, fun _ h => h⟩

theorem grows_writeFile (fs : FS) (p c : String) : Grows fs (writeFile fs p c) :=
  ⟨fun _ h => h, fun _ h => List.mem_cons_of_mem _ h⟩

theorem Grows.existsPath_mono {a b : FS} (h : Grows a b) {q : String}
    (he : existsPath a q = true) : existsPath b q = true := by
  rw [existsPath_iff] at he ⊢
  rcases he with h1 | ⟨kv, hm, hk⟩
  · exact Or.inl (h.1 q h1)
  · exact Or.inr ⟨kv, h.2 kv hm, hk⟩

theorem grows_add_vocab (s : Skill) (root : String) (fs : FS) :
    Grows fs (add_vocab s root fs) :=
  grows_trans (grows_mkdir _ _) (grows_trans (grows_mkdir _ _) (grows_writeFile _ _ _))

theorem grows_add_dialog (s : Skill) (root : String) (fs : FS) :
    Grows fs (add_dialog s root fs) :=
  grows_trans (grows_mkdir _ _) (grows_trans (grows_mkdir _ _) (grows_writeFile _ _ _))

theorem skill_template_grows (s : Skill) (root : String) :
    ∀ e ∈ skill_template s root, EntryGrows e := by
  intro e he
  simp only [skill_template, List.mem_cons, List.not_mem_nil, or_false] at he
  rcases he with rfl | rfl | rfl | rfl | rfl | rfl | rfl | rfl
  · exact fun fs => grows_mkdir fs root
  · exact fun fs => grows_refl fs
  · exact fun fs => grows_refl fs
  · exact fun fs => grows_add_vocab s root fs
  · exact fun fs => grows_add_dialog s root fs
  · exact fun fs => grows_refl fs
  · exact fun fs => grows_refl fs
  · exact fun fs => grows_mkdir fs (pyJoinPath root ".git")

theorem procEntry_grows (root : String) (files : Option (List String)) (fs : FS)
    (e : Entry) (hg : EntryGrows e) : Grows fs (procEntry root files fs e) := by
  unfold procEntry
  split
  · exact grows_refl fs
  split
  · exact grows_refl fs
  cases ho : (e.2 fs).2 with
  | none => simpa [ho] using hg fs
  | some c =>
      simp only [ho]
      split
      · exact hg fs
      · exact grows_trans (hg fs) (grows_writeFile _ _ _)

theorem runEntries_grows (root : String) (files : Option (List String))
    (es : List Entry) (h : ∀ e ∈ es, EntryGrows e) :
    ∀ fs, Grows fs (runEntries root files fs es) := by
  induction es with
  | nil => exact fun fs => grows_refl fs
  | cons a t ih =>
      intro fs
      have h1 := procEntry_grows root files fs a (h a (List.mem_cons_self a t))
      have h2 := ih (fun e he => h e (List.mem_cons_of_mem a he)) (procEntry root files fs a)
      exact grows_trans h1 h2

theorem procEntry_of_exists (root : String) (files : Option (List String)) (fs : FS)
    (e : Entry) (h : existsPath fs (pyJoinPath root e.1) = true) :
    procEntry root files fs e = fs := by
  by_cases hs : entrySkipped files e.1 = true <;> simp [procEntry, hs, h]

theorem runEntries_id (root : String) (files : Option (List String)) (es : List Entry)
    (fs : FS) (h : ∀ e ∈ es, existsPath fs (pyJoinPath root e.1) = true) :
    runEntries root files fs es = fs := by
  induction es with
  | nil => rfl
  | cons a t ih =>
      have ha := procEntry_of_exists root files fs a (h a (List.mem_cons_self a t))
      show runEntries root files (procEntry root files fs a) t = fs
      rw [ha]
      exact ih (fun e he => h e (List.mem_cons_of_mem a he))

theorem existsPath_mkdir_self (fs : FS) (p : String) :
    existsPath (mkdir fs p) p = true := by
  rw [existsPath_iff]
  exact Or.inl (List.mem_cons_self _ _)

theorem existsPath_writeFile_self (fs : FS) (p c : String) :
    existsPath (writeFile fs p c) p = true := by
  rw [existsPath_iff]
  exact Or.inr ⟨(p, c), List.mem_cons_self _ _, rfl⟩

theorem establishes_pure (root nm c : String) :
    EstablishesAt root none (nm, fun fs => (fs, some c)) := by
  intro fs
  by_cases h : existsPath fs (pyJoinPath root nm) = true
  · rw [procEntry_of_exists _ _ _ _ h]; exact h
  · have hb : existsPath fs (pyJoinPath root nm) = false := by simpa using h
    simp [procEntry, entrySkipped, hb, existsPath_writeFile_self]

theorem establishes_root (root : String) :
    EstablishesAt root none ("", fun fs => (mkdir fs root, none)) := by
  intro fs
  by_cases h : existsPath fs (pyJoinPath root "") = true
  · rw [procEntry_of_exists _ _ _ _ h]; exact h
  · have hb : existsPath fs (pyJoinPath root "") = false := by simpa using h
    simp only [procEntry, entrySkipped, hb, Bool.false_eq_true, if_false]
    simpa [pyJoinPath] using existsPath_mkdir_self fs root

theorem establishes_vocab (s : Skill) (root : String) :
    EstablishesAt root none ("vocab", fun fs => (add_vocab s root fs, none)) := by
  intro fs
  by_cases h : existsPath fs (pyJoinPath root "vocab") = true
  · rw [procEntry_of_exists _ _ _ _ h]; exact h
  · have hb : existsPath fs (pyJoinPath root "vocab") = false := by simpa using h
    simp only [procEntry, entrySkipped, hb, Bool.false_eq_true, if_false]
    have h1 := existsPath_mkdir_self fs (pyJoinPath root "vocab")
    have h2 : Grows (mkdir fs (pyJoinPath root "vocab")) (add_vocab s root fs) :=
      grows_trans (grows_mkdir _ _) (grows_writeFile _ _ _)
    exact h2.existsPath_mono h1

theorem establishes_dialog (s : Skill) (root : String) :
    EstablishesAt root none ("dialog", fun fs => (add_dialog s root fs, none)) := by
  intro fs
  by_cases h : existsPath fs (pyJoinPath root "dialog") = true
  · rw [procEntry_of_exists _ _ _ _ h]; exact h
  · have hb : existsPath fs (pyJoinPath root "dialog") = false := by simpa using h
    simp only [procEntry, entrySkipped, hb, Bool.false_eq_true, if_false]
    have h1 := existsPath_mkdir_self fs (pyJoinPath root "dialog")
    have h2 : Grows (mkdir fs (pyJoinPath root "dialog")) (add_dialog s root fs) :=
      grows_trans (grows_mkdir _ _) (grows_writeFile _ _ _)
    exact h2.existsPath_mono h1

theorem establishes_git (root : String) :
    EstablishesAt root none (".git", fun fs => (gitInit root fs, some (gitInitMsg root))) := by
  intro fs
  by_cases h : existsPath fs (pyJoinPath root ".git") = true
  · rw [procEntry_of_exists _ _ _ _ h]; exact h
  · have hb : existsPath fs (pyJoinPath root ".git") = false := by simpa using h
    simp [procEntry, entrySkipped, hb, gitInit, existsPath_mkdir_self]

theorem skill_template_establishes (s : Skill) (root : String) :
    ∀ e ∈ skill_template s root, EstablishesAt root none e := by
  intro e he
  simp only [skill_template, List.mem_cons, List.not_mem_nil, or_false] at he
  rcases he with rfl | rfl | rfl | rfl | rfl | rfl | rfl | rfl
  · exact establishes_root root
  · exact establishes_pure root "__init__.py" (init_file s)
  · exact establishes_pure root "README.md" (readme s)
  · exact establishes_vocab s root
  · exact establishes_dialog s root
  · exact establishes_pure root ".gitignore" gitignore_template
  · exact establishes_pure root "settingsmeta.json"
      (settingsmeta_template (pyCapitalize (pyReplaceChar s.name '-' " ")))
  · exact establishes_git root

theorem runEntries_establishes (root : String) (es : List Entry)
    (hg : ∀ e ∈ es, EntryGrows e) (hs : ∀ e ∈ es, EstablishesAt root none e) :
    ∀ e ∈ es, ∀ fs, existsPath (runEntries root none fs es) (pyJoinPath root e.1) = true := by
  induction es with
  | nil => intro e he; cases he
  | cons a t ih =>
      intro e he fs
      rcases List.mem_cons.mp he with rfl | het
      · have h1 := hs e (List.mem_cons_self e t) fs
        have h2 := runEntries_grows root none t
          (fun x hx => hg x (List.mem_cons_of_mem e hx)) (procEntry root none fs e)
        exact h2.existsPath_mono h1
      · exact ih (fun x hx => hg x (List.mem_cons_of_mem a hx))
          (fun x hx => hs x (List.mem_cons_of_mem a hx)) e het (procEntry root none fs a)

theorem isUnder_self (p : String) : isUnder p p = true := by
  simp [isUnder]

theorem existsPath_rmtree_self (fs : FS) (p : String) :
    existsPath (rmtree fs p) p = false := by
  by_contra hcon
  have h2 : existsPath (rmtree fs p) p = true := by
    cases h : existsPath (rmtree fs p) p
    · exact absurd h hcon
    · rfl
  rw [existsPath_iff] at h2
  rcases h2 with hd | ⟨kv, hm, hk⟩
  · have hfd := (List.mem_filter.mp hd).2
    simp [isUnder_self] at hfd
  · have hff := (List.mem_filter.mp hm).2
    rw [hk] at hff
    simp [isUnder_self] at hff

theorem runEntries_some_nil (root : String) (es : List Entry) :
    ∀ fs, runEntries root (some []) fs es = runEntries root none fs es := by
  induction es with
  | nil => intro fs; rfl
  | cons a t ih =>
      intro fs
      show runEntries root (some []) (procEntry root (some []) fs a) t =
        runEntries root none (procEntry root none fs a) t
      have hpe : procEntry root (some []) fs a = procEntry root none fs a := by
        simp [procEntry, entrySkipped]
      rw [hpe]
      exact ih _

theorem sha_ne_head (t : String) : "sha-" ++ t ≠ "HEAD" := by
  obtain ⟨td⟩ := t
  intro h
  have hl := congrArg String.length h
  rw [String.length_append] at hl
  have h4 : ("sha-" : String).length = 4 := rfl
  have h5 : ("HEAD" : String).length = 4 := rfl
  rw [h4, h5] at hl
  have ht : td.length = 0 := by
    have : (String.mk td).length = td.length := rfl
    omega
  have hnil : td = [] := List.eq_nil_of_length_eq_zero ht
  subst hnil
  exact absurd h (by decide)

theorem rev_parse_head_eq_head_iff (r : GitRepo) :
    rev_parse_head r = "HEAD" ↔ r.commits = [] := by
  cases hc : r.commits with
  | nil => simp [rev_parse_head, hc]
  | cons a t => simp [rev_parse_head, hc, sha_ne_head]

theorem commit_changes_of_empty (r : GitRepo) (hc : r.commits = []) :
    commit_changes r =
      { r with staged := r.worktree, commits := [("Initial commit", r.worktree)] } := by
  rw [commit_changes, if_pos ((rev_parse_head_eq_head_iff r).mpr hc)]
  simp [git_commit, git_add_all, hc]

theorem commit_changes_of_nonempty (r : GitRepo) (hc : r.commits ≠ []) :
    commit_changes r = r := by
  rw [commit_changes, if_neg]
  intro h
  exact hc ((rev_parse_head_eq_head_iff r).mp h)

/-! ## Claims -/

/-- C1: if the target directory does not exist when `initialize_template`
starts, the cleanup handler (which `rmtree`s the target) is registered before
any entry runs and unregistered only after every entry has completed; hence
any run aborted after `k < 8` completed entries still has the handler
registered, and running the registered exit handlers leaves the target
directory nonexistent. -/
theorem initialize_template_cleanup_on_abort (s : Skill) (root : String)
    (files : Option (List String)) (fs₀ : FS) (k : Nat)
    (h : isDir fs₀ root = false) (_hk : k < (skill_template s root).length) :
    (initialize_template_abortedAt s root files fs₀ k).cleanupRegistered = true ∧
    existsPath (processExit root (initialize_template_abortedAt s root files fs₀ k))
      root = false := by
  constructor
  · simp [initialize_template_abortedAt, h]
  · simp [processExit, initialize_template_abortedAt, h, existsPath_rmtree_self]

/-- Witness for C1: aborting a run on the empty filesystem after 3 entries
leaves the cleanup registered and the exit handlers delete the directory. -/
theorem initialize_template_cleanup_on_abort_witness :
    (initialize_template_abortedAt pizzaSkill "skill" none FS.empty 3).cleanupRegistered
      = true ∧
    existsPath (processExit "skill"
      (initialize_template_abortedAt pizzaSkill "skill" none FS.empty 3)) "skill" = false :=
  initialize_template_cleanup_on_abort pizzaSkill "skill" none FS.empty 3
    (by decide) (by decide)

/-- C2: an entry whose relative path already exists under the target is
skipped entirely (no side effect), and consequently running
`initialize_template` twice in succession yields exactly the state of running
it once — the second run changes nothing. -/
theorem initialize_template_idempotent (s : Skill) (root : String) (fs₀ : FS) :
    (∀ e, e ∈ skill_template s root →
       existsPath fs₀ (pyJoinPath root e.1) = true → procEntry root none fs₀ e = fs₀) ∧
    initialize_template s root none (initialize_template s root none fs₀).fs =
      initialize_template s root none fs₀ := by
  constructor
  · intro e _ h
    exact procEntry_of_exists root none fs₀ e h
  · have hall : ∀ e ∈ skill_template s root,
        existsPath (runEntries root none fs₀ (skill_template s root))
          (pyJoinPath root e.1) = true :=
      fun e he => runEntries_establishes root (skill_template s root)
        (skill_template_grows s root) (skill_template_establishes s root) e he fs₀
    have hid := runEntries_id root none (skill_template s root)
      (runEntries root none fs₀ (skill_template s root)) hall
    simp [initialize_template, hid]

/-- Witness for C2: on a filesystem where the target directory already
exists, the root entry is skipped, and the double run equals the single
run for the pizza-orderer skill. -/
theorem initialize_template_idempotent_witness :
    procEntry "skill" none ⟨["skill"], []⟩ ("", fun fs => (mkdir fs "skill", none)) =
      (⟨["skill"], []⟩ : FS) ∧
    initialize_template pizzaSkill "skill" none
        (initialize_template pizzaSkill "skill" none ⟨["skill"], []⟩).fs =
      initialize_template pizzaSkill "skill" none ⟨["skill"], []⟩ := by
  have h := initialize_template_idempotent pizzaSkill "skill" ⟨["skill"], []⟩
  exact ⟨h.1 ("", fun fs => (mkdir fs "skill", none))
    (by unfold skill_template; exact List.Mem.head _) (by decide), h.2⟩

/-- C3: for an entry whose handler returns text content, the content is
written to the entry's path only if, after the handler has run, the path
still does not exist; when the handler itself created the path no write
occurs. -/
theorem initialize_template_write_guard (root nm c : String)
    (act : FS → FS × Option String) (fs fs1 : FS)
    (hne : existsPath fs (pyJoinPath root nm) = false)
    (hact : act fs = (fs1, some c)) :
    procEntry root none fs (nm, act) =
      if existsPath fs1 (pyJoinPath root nm) then fs1
      else writeFile fs1 (pyJoinPath root nm) c := by
  simp [procEntry, entrySkipped, hne, hact]

/-- Witness for C3: the `.git` entry's handler both creates `.git` and
returns a string, so the write-back is suppressed. -/
theorem initialize_template_write_guard_witness :
    procEntry "skill" none ⟨["skill"], []⟩
      (".git", fun fs => (gitInit "skill" fs, some (gitInitMsg "skill"))) =
      if existsPath (gitInit "skill" ⟨["skill"], []⟩) (pyJoinPath "skill" ".git")
      then gitInit "skill" ⟨["skill"], []⟩
      else writeFile (gitInit "skill" ⟨["skill"], []⟩) (pyJoinPath "skill" ".git")
        (gitInitMsg "skill") :=
  initialize_template_write_guard "skill" ".git" (gitInitMsg "skill")
    (fun fs => (gitInit "skill" fs, some (gitInitMsg "skill")))
    ⟨["skill"], []⟩ (gitInit "skill" ⟨["skill"], []⟩) (by decide) rfl

/-- C4: if the target directory already existed before the run, the cleanup
handler is never registered, so termination after any number of completed
entries leaves the directory in place. -/
theorem initialize_template_preexisting_dir_preserved (s : Skill) (root : String)
    (files : Option (List String)) (fs₀ : FS) (k : Nat)
    (h : isDir fs₀ root = true) :
    (initialize_template_abortedAt s root files fs₀ k).cleanupRegistered = false ∧
    isDir (processExit root (initialize_template_abortedAt s root files fs₀ k))
      root = true := by
  have hreg : (initialize_template_abortedAt s root files fs₀ k).cleanupRegistered
      = false := by
    simp [initialize_template_abortedAt, h]
  refine ⟨hreg, ?_⟩
  have hg : ∀ e ∈ (skill_template s root).take k, EntryGrows e :=
    fun e he => skill_template_grows s root e (List.take_subset k _ he)
  have h2 := runEntries_grows root files ((skill_template s root).take k) hg fs₀
  have h3 : isDir (runEntries root files fs₀ ((skill_template s root).take k))
      root = true :=
    isDir_iff.mpr (h2.1 root (isDir_iff.mp h))
  simp [processExit, initialize_template_abortedAt, h, h3]

/-- Witness for C4: aborting after 3 entries on a filesystem that already
contained the target directory keeps the directory. -/
theorem initialize_template_preexisting_dir_preserved_witness :
    (initialize_template_abortedAt pizzaSkill "skill" none ⟨["skill"], []⟩ 3).cleanupRegistered
      = false ∧
    isDir (processExit "skill"
      (initialize_template_abortedAt pizzaSkill "skill" none ⟨["skill"], []⟩ 3)) "skill"
      = true :=
  initialize_template_preexisting_dir_preserved pizzaSkill "skill" none
    ⟨["skill"], []⟩ 3 (by decide)

/-- C5 counterexample: instantiating the pizza-orderer skill produces a
`settingsmeta.json` that is NOT the template with the capitalized
description substituted — the claim as stated is false on the code. -/
theorem settingsmeta_not_capitalized_description :
    readFile ((initialize_template pizzaSkill "skill" none FS.empty).fs)
      "skill/settingsmeta.json" ≠ some (settingsmeta_spec pizzaSkill) := by
  decide

/-- C5 (amended): the `settingsmeta.json` entry of the template writes
exactly the fixed settingsmeta template with one substituted value, and that
value is the capitalized skill name with hyphens replaced by spaces. -/
theorem settingsmeta_capitalized_name_substitution (s : Skill) (root : String)
    (fs : FS) (e : Entry) (he : e ∈ skill_template s root)
    (hnm : e.1 = "settingsmeta.json")
    (h : existsPath fs (pyJoinPath root "settingsmeta.json") = false) :
    procEntry root none fs e =
      writeFile fs (pyJoinPath root "settingsmeta.json")
        (settingsmeta_template (pyCapitalize (pyReplaceChar s.name '-' " "))) := by
  simp only [skill_template, List.mem_cons, List.not_mem_nil, or_false] at he
  rcases he with rfl | rfl | rfl | rfl | rfl | rfl | rfl | rfl
  · simp at hnm
  · simp at hnm
  · simp at hnm
  · simp at hnm
  · simp at hnm
  · simp at hnm
  · simp [procEntry, entrySkipped, h]
  · simp at hnm

/-- Witness for C5 (amended): the settingsmeta entry fired on the empty
filesystem writes the capitalized-name substitution. -/
theorem settingsmeta_capitalized_name_substitution_witness :
    procEntry "skill" none FS.empty
      ("settingsmeta.json", fun fs =>
        (fs, some (settingsmeta_template (pyCapitalize (pyReplaceChar pizzaSkill.name '-' " "))))) =
      writeFile FS.empty (pyJoinPath "skill" "settingsmeta.json")
        (settingsmeta_template (pyCapitalize (pyReplaceChar pizzaSkill.name '-' " "))) := by
  have hmem : (("settingsmeta.json", fun fs =>
      (fs, some (settingsmeta_template (pyCapitalize (pyReplaceChar pizzaSkill.name '-' " "))))) : Entry)
      ∈ skill_template pizzaSkill "skill" := by
    unfold skill_template
    exact List.mem_cons_of_mem _ (List.mem_cons_of_mem _ (List.mem_cons_of_mem _
      (List.mem_cons_of_mem _ (List.mem_cons_of_mem _ (List.mem_cons_of_mem _
        (List.Mem.head _))))))
  exact settingsmeta_capitalized_name_substitution pizzaSkill "skill" FS.empty _
    hmem rfl (by decide)

/-- C6: the intent identifier is the skill name's hyphen-separated segments,
reversed, joined with a dot; "pizza-orderer" yields "orderer.pizza". -/
theorem intent_name_reversed_segments :
    (∀ s : Skill, intent_name s = pyJoin "." (pySplitChar s.name '-').reverse) ∧
    intent_name pizzaSkill = "orderer.pizza" :=
  ⟨fun _ => rfl, by decide⟩

/-- C7: the derived class name is the kebab-case skill name converted to
PascalCase with the fixed suffix `Skill`; "siren-alarm" yields
"SirenAlarmSkill". -/
theorem class_name_pascal_case_suffix :
    (∀ s : Skill, class_name s = to_camel (pyReplaceChar s.name '-' "_") ++ "Skill") ∧
    class_name sirenSkill = "SirenAlarmSkill" :=
  ⟨fun _ => rfl, by decide⟩

/-- C8: `commit_changes` stages all files and creates a single initial commit
with the fixed message exactly when the repository has no commits yet; on a
repository that already has a commit it is a no-op, and running it twice
from a fresh repository yields exactly one commit. -/
theorem commit_changes_single_initial_commit (r : GitRepo) :
    commit_changes (commit_changes r) = commit_changes r ∧
    (r.commits = [] → commit_changes r =
      { r with staged := r.worktree, commits := [("Initial commit", r.worktree)] }) ∧
    (r.commits ≠ [] → commit_changes r = r) ∧
    (r.commits = [] → (commit_changes (commit_changes r)).commits.length = 1) := by
  by_cases hc : r.commits = []
  · have h1 := commit_changes_of_empty r hc
    have h2 : commit_changes (commit_changes r) = commit_changes r := by
      rw [h1]
      exact commit_changes_of_nonempty _ (by simp)
    exact ⟨h2, fun _ => h1, fun hne => absurd hc hne,
      fun _ => by rw [h2, h1]; rfl⟩
  · have h1 := commit_changes_of_nonempty r hc
    exact ⟨by rw [h1, h1], fun he => absurd he hc, fun _ => h1,
      fun he => absurd he hc⟩

/-- Witness for C8: a fresh repository gets exactly one commit, which
survives a second `commit_changes`; a repository with a commit is left
untouched. -/
theorem commit_changes_single_initial_commit_witness :
    commit_changes (commit_changes
      { worktree := ["__init__.py"], staged := [], commits := [] }) =
      commit_changes { worktree := ["__init__.py"], staged := [], commits := [] } ∧
    commit_changes { worktree := ["__init__.py"], staged := [], commits := [] } =
      { worktree := ["__init__.py"], staged := ["__init__.py"],
        commits := [("Initial commit", ["__init__.py"])] } ∧
    (commit_changes (commit_changes
      { worktree := ["__init__.py"], staged := [], commits := [] })).commits.length = 1 ∧
    commit_changes
        { worktree := [], staged := [], commits := [("Initial commit", [])] } =
      { worktree := [], staged := [], commits := [("Initial commit", [])] } := by
  have h := commit_changes_single_initial_commit
    { worktree := ["__init__.py"], staged := [], commits := [] }
  have h2 := commit_changes_single_initial_commit
    { worktree := [], staged := [], commits := [("Initial commit", [])] }
  exact ⟨h.1, h.2.1 rfl, h.2.2.2 rfl, h2.2.2.1 (by decide)⟩

/-- C9: when the hosting API's create-repository call fails with status 422
("already exists"), `create_github_repo` raises `GithubRepoExists` with the
chosen repository name; any other error status propagates unchanged. -/
theorem create_github_repo_error_mapping (remotes : List String) (confirm : Bool)
    (repoName : String) (e : GithubException)
    (hr : remotes.contains "origin" = false) (hc : confirm = true) :
    (e.status = 422 →
      create_github_repo remotes confirm repoName (.error e) =
        .error (.githubRepoExists repoName)) ∧
    (e.status ≠ 422 →
      create_github_repo remotes confirm repoName (.error e) =
        .error (.github e)) := by
  have hr2 : "origin" ∉ remotes := by simpa using hr
  constructor
  · intro h422
    simp [create_github_repo, create_repo_result, hr2, hc, h422]
  · intro hother
    simp [create_github_repo, create_repo_result, hr2, hc, hother]

/-- Witness for C9: a 422 failure maps to the exists-failure, a 500 failure
propagates unchanged. -/
theorem create_github_repo_error_mapping_witness :
    create_github_repo [] true "pizza-orderer-skill" (.error ⟨422⟩) =
      .error (.githubRepoExists "pizza-orderer-skill") ∧
    create_github_repo [] true "pizza-orderer-skill" (.error ⟨500⟩) =
      .error (.github ⟨500⟩) :=
  ⟨(create_github_repo_error_mapping [] true "pizza-orderer-skill" ⟨422⟩
      rfl rfl).1 rfl,
   (create_github_repo_error_mapping [] true "pizza-orderer-skill" ⟨500⟩
      rfl rfl).2 (by decide)⟩

/-- C10: with a non-empty filter set an entry is processed exactly when its
name is in the set (so the root entry, named `""`, is skipped whenever `""`
is not in the set), while the empty filter set behaves identically to no
filter at all. -/
theorem initialize_template_filter_semantics (s : Skill) (root : String)
    (l : List String) (fs : FS) (e : Entry) :
    (l ≠ [] → procEntry root (some l) fs e =
       if l.contains e.1 then procEntry root none fs e else fs) ∧
    initialize_template s root (some []) fs = initialize_template s root none fs ∧
    (l ≠ [] → l.contains "" = false →
       ∀ e2 ∈ skill_template s root, e2.1 = "" → procEntry root (some l) fs e2 = fs) := by
  have hemp : ∀ (hl : l ≠ []), l.isEmpty = false := by
    intro hl
    cases l with
    | nil => exact absurd rfl hl
    | cons a t => rfl
  refine ⟨?_, ?_, ?_⟩
  · intro hl
    by_cases hc : l.contains e.1 = true
    · have hm : e.1 ∈ l := by simpa using hc
      simp [procEntry, entrySkipped, hm]
    · have hmf : e.1 ∉ l := by simpa using hc
      simp [procEntry, entrySkipped, hl, hmf]
  · simp [initialize_template, runEntries_some_nil]
  · intro hl hns e2 _ hnm
    have hns2 : "" ∉ l := by simpa using hns
    simp [procEntry, entrySkipped, hnm, hns2, hl]

/-- Witness for C10: with filter `{"vocab"}` the vocab entry runs as without
a filter, the root entry is skipped, and the empty filter equals no
filter. -/
theorem initialize_template_filter_semantics_witness :
    (procEntry "skill" (some ["vocab"]) FS.empty
        (("vocab", fun fs => (add_vocab pizzaSkill "skill" fs, none)) : Entry) =
      if ["vocab"].contains (("vocab", fun fs => (add_vocab pizzaSkill "skill" fs, none)) : Entry).1
      then procEntry "skill" none FS.empty
        (("vocab", fun fs => (add_vocab pizzaSkill "skill" fs, none)) : Entry)
      else FS.empty) ∧
    initialize_template pizzaSkill "skill" (some []) FS.empty =
      initialize_template pizzaSkill "skill" none FS.empty ∧
    procEntry "skill" (some ["vocab"]) FS.empty ("", fun fs => (mkdir fs "skill", none)) =
      FS.empty := by
  have h := initialize_template_filter_semantics pizzaSkill "skill" ["vocab"] FS.empty
    (("vocab", fun fs => (add_vocab pizzaSkill "skill" fs, none)) : Entry)
  refine ⟨h.1 (by decide), h.2.1, ?_⟩
  exact h.2.2 (by decide) (by decide) ("", fun fs => (mkdir fs "skill", none))
    (by unfold skill_template; exact List.Mem.head _) rfl

end MskCreate
